import Mathlib

/-
Verification of the hertz-contrib/reverseproxy core against its
natural-language specification.

The Go sources are shallowly embedded over `List Char` strings:

* hertz header collections (`protocol.RequestHeader`, `protocol.ResponseHeader`,
  `http.Header`) are ordered lists of (name, value) pairs; `Peek` returns the
  first occurrence, `PeekAll` all occurrences, `Add` appends, `Set` replaces
  every occurrence with one entry, `DelBytes` deletes every occurrence.
  Header-name canonicalisation is not modelled: names are compared verbatim,
  and concrete inputs use the canonical spellings the code itself uses.
  `VisitAll` with deletions inside the callback is modelled as iteration over
  the entry list as it stood when the visit started.
* the backend HTTP client (`client.Do` and friends) is an abstract function
  `Request → Except Str Response`; on success the response is replaced by the
  backend's response, on failure it is left untouched.
* `net.SplitHostPort(ctx.RemoteAddr())` is abstracted as an optional
  caller-IP string (`none` models the error case of SplitHostPort).
* goroutine channels in the WebSocket relay are modelled by the finite
  sequence of messages received by the coordinating loop, in arrival order.
-/

/-- Go strings and byte slices, as lists of characters. -/
abbrev Str := List Char

/-- Shorthand turning a Lean string literal into the `Str` char list. -/
def strOf (s : String) : Str := s.data

/-- A header collection: ordered (name, value) entries. -/
abbrev Headers := List (Str × Str)

/-- The names present in a header collection. -/
def namesOf (h : Headers) : List Str := h.map Prod.fst

/-- hertz `Header.Peek`: the value of the first entry named `k`, if any. -/
def peekH (k : Str) : Headers → Option Str
  | [] => none
  | p :: t => if p.1 = k then some p.2 else peekH k t

/-- hertz `Header.PeekAll`: the values of all entries named `k`, in order. -/
def peekAllH (k : Str) : Headers → List Str
  | [] => []
  | p :: t => if p.1 = k then p.2 :: peekAllH k t else peekAllH k t

/-- hertz `Header.DelBytes`: delete every entry named `k`. -/
def delName (k : Str) : Headers → Headers
  | [] => []
  | p :: t => if p.1 = k then delName k t else p :: delName k t

/-- hertz `Header.Add`: append one more entry. -/
def addH (k v : Str) (h : Headers) : Headers := h ++ [(k, v)]

/-- hertz `Header.Set`: replace all entries named `k` by a single one. -/
def setH (k v : Str) (h : Headers) : Headers := addH k v (delName k h)

/-- Go `strings.Split` on a one-character separator (the separators used by
the proxy are "," and "?"). -/
def splitOnChar (c : Char) : Str → List Str
  | [] => [[]]
  | x :: xs =>
    if x = c then [] :: splitOnChar c xs
    else
      match splitOnChar c xs with
      | [] => [[x]]
      | h :: t => (x :: h) :: t

/-- The prefix of `l` before the first occurrence of `c`. -/
def upToChar (c : Char) : Str → Str
  | [] => []
  | x :: xs => if x = c then [] else x :: upToChar c xs

/-- What follows the first occurrence of `c` in `l` (empty when `c` is absent). -/
def fromChar (c : Char) : Str → Str
  | [] => []
  | x :: xs => if x = c then xs else fromChar c xs

/-- Whether `c` occurs in `l`. -/
def containsChar (c : Char) : Str → Bool
  | [] => false
  | x :: xs => if x = c then true else containsChar c xs

/-- `net/textproto.TrimString`: byte is an ASCII space, tab, newline or CR. -/
def isASCIISpace (c : Char) : Bool := c == ' ' || c == '\t' || c == '\n' || c == '\r'

/-- `net/textproto.TrimString`: strip leading and trailing ASCII whitespace. -/
def trimString (v : Str) : Str :=
  ((v.dropWhile isASCIISpace).reverse.dropWhile isASCIISpace).reverse

/-- Go `bytes.Contains`: whether `needle` occurs as a contiguous substring. -/
def containsSub (needle : Str) : Str → Bool
  | [] => needle.isEmpty
  | x :: xs => List.isPrefixOf needle (x :: xs) || containsSub needle xs

/-- One `Connection` header value split into its non-empty trimmed tokens
(`removeRequestConnHeaders` / `removeResponseConnHeaders`, inner loop). -/
def connTokensOfValue (v : Str) : List Str :=
  ((splitOnChar ',' v).map trimString).filter (fun t => !t.isEmpty)

/-- Header name constants used by the proxy. -/
def connectionName : Str := strOf "Connection"

def teName : Str := strOf "Te"

def trailerName : Str := strOf "Trailer"

def trailersVal : Str := strOf "trailers"

def xffName : Str := strOf "X-Forwarded-For"

/-- All hop-by-hop names dynamically listed by `Connection` headers of `h`
(every non-empty whitespace-trimmed comma token of every occurrence). -/
def connTokens (h : Headers) : List Str :=
  (peekAllH connectionName h).flatMap connTokensOfValue

/-- Delete each name of `toks` from `h`, in order. -/
def delFoldNames (toks : List Str) (h : Headers) : Headers :=
  toks.foldl (fun acc n => delName n acc) h

/-- `removeRequestConnHeaders` / `removeResponseConnHeaders`: delete every
header named by a `Connection` token (tokens read from the state at entry). -/
def removeConnHeaders (h : Headers) : Headers :=
  delFoldNames (connTokens h) h

/-- The static hop-by-hop list `hopHeaders` of reverse_proxy.go. -/
def hopHeadersL : List Str :=
  [strOf "Connection", strOf "Proxy-Connection", strOf "Keep-Alive",
   strOf "Proxy-Authenticate", strOf "Proxy-Authorization", strOf "Te",
   strOf "Trailer", strOf "Transfer-Encoding", strOf "Upgrade"]

/-- The eight static hop-by-hop names that remain deleted when the `Trailer`
skip of the strip loop is active. -/
def strippedHopList : List Str :=
  [strOf "Connection", strOf "Proxy-Connection", strOf "Keep-Alive",
   strOf "Proxy-Authenticate", strOf "Proxy-Authorization", strOf "Te",
   strOf "Transfer-Encoding", strOf "Upgrade"]

/-- The `for _, h := range hopHeaders` deletion loop of ServeHTTP: every
static hop-by-hop name is deleted, except that `Trailer` is skipped whenever
`transferTrailer` is set. -/
def stripHopHeaders (transferTrailer : Bool) (h : Headers) : Headers :=
  hopHeadersL.foldl
    (fun acc n => if transferTrailer && (n == trailerName) then acc else delName n acc) h

/-- `checkTeHeader`: whether any `Te` occurrence contains the byte substring
"trailers" (`bytes.Contains`, which is case-sensitive). -/
def checkTeHeader (h : Headers) : Bool :=
  (peekAllH teName h).any (fun v => containsSub trailersVal v)

/-- The case-insensitive variant of the `Te: trailers` test. This is what the
spec sentence describes; it is compared against the code's case-sensitive
`checkTeHeader`. -/
def checkTeHeaderCI (h : Headers) : Bool :=
  (peekAllH teName h).any (fun v => containsSub trailersVal (v.map Char.toLower))

/-- A hertz request: its header entries and the `connectionClose` flag. -/
structure Request where
  headers : Headers
  connClose : Bool
deriving DecidableEq

/-- A hertz response: header entries, status code and body. -/
structure Response where
  headers : Headers
  status : Nat
  body : Str
deriving DecidableEq

/-- `RequestHeader.ResetConnectionClose`: when the flag is set, clear it and
drop the `Connection` header. -/
def resetConnectionClose (r : Request) : Request :=
  if r.connClose then { headers := delName connectionName r.headers, connClose := false } else r

/-- The HTTP proxy configuration (the `ReverseProxy` fields that ServeHTTP
reads). `modifyResponse` both transforms the response in place and may return
an error, so it is modelled as returning the mutated response and an optional
error. The error handler receives the response in progress and the error. -/
structure Config where
  transferTrailer : Bool
  saveOriginResHeader : Bool
  director : Option (Request → Request)
  modifyResponse : Option (Response → Response × Option Str)
  errorHandler : Option (Response → Str → Response)

/-- The request after the optional director and `ResetConnectionClose`. -/
def directedRequest (cfg : Config) (req : Request) : Request :=
  resetConnectionClose (match cfg.director with | some d => d req | none => req)

/-- ServeHTTP's outbound-request header sanitisation: pre-check the trailer
eligibility, remove `Connection`-listed names, strip the static hop-by-hop
list (skipping `Trailer` when `transferTrailer`), then re-add a single
`Te: trailers` when eligible. -/
def sanitizeRequestHeaders (transferTrailer : Bool) (h : Headers) : Headers :=
  let hasTeTrailer := transferTrailer && checkTeHeader h
  let h2 := stripHopHeaders transferTrailer (removeConnHeaders h)
  if transferTrailer && hasTeTrailer then setH teName trailersVal h2 else h2

/-- ServeHTTP's X-Forwarded-For step. `remoteIP` is the host part of
`net.SplitHostPort(ctx.RemoteAddr())`, `none` when splitting failed.
A present-but-empty value (a director set it to "") suppresses the append. -/
def xffStep (remoteIP : Option Str) (h : Headers) : Headers :=
  match remoteIP with
  | none => h
  | some ip =>
    match peekH xffName h with
    | none => addH xffName ip h
    | some prior => if prior.isEmpty then h else addH xffName (prior ++ strOf ", " ++ ip) h

/-- The request ServeHTTP hands to `doClientBehavior` (delivered to the
backend client). -/
def backendRequest (cfg : Config) (req : Request) (remoteIP : Option Str) : Request :=
  { headers :=
      xffStep remoteIP (sanitizeRequestHeaders cfg.transferTrailer (directedRequest cfg req).headers),
    connClose := false }

/-- ServeHTTP's inbound-response sanitisation: `Connection`-listed names,
then the static hop-by-hop list (skipping `Trailer` when `transferTrailer`). -/
def sanitizeResponseHeaders (transferTrailer : Bool) (h : Headers) : Headers :=
  stripHopHeaders transferTrailer (removeConnHeaders h)

/-- The pooled scratch map: header name to the list of its snapshotted values. -/
abbrev TmpHeaderMap := List (Str × List Str)

/-- One step of the snapshot: append `v` under `k` (Go map plus append). -/
def snapInsert (k v : Str) : TmpHeaderMap → TmpHeaderMap
  | [] => [(k, [v])]
  | p :: t => if p.1 = k then (p.1, p.2 ++ [v]) :: t else p :: snapInsert k v t

/-- The `saveOriginResHeader` snapshot of the response headers into the
pooled scratch map (taken before the backend call can overwrite them). -/
def buildSnapshot (h : Headers) : TmpHeaderMap :=
  h.foldl (fun m p => snapInsert p.1 p.2 m) []

/-- The scratch map ServeHTTP fills at entry: the snapshot when
`saveOriginResHeader` is set, else the empty map freshly taken from the pool. -/
def snapshotOf (cfg : Config) (resp0 : Response) : TmpHeaderMap :=
  if cfg.saveOriginResHeader then buildSnapshot resp0.headers else []

/-- The doubly nested `for k, vs { for v { Add(k, v) } }` loop shared by the
snapshot merge of ServeHTTP and by `wsCopyResponse`. -/
def addAllFold (entries : List (Str × List Str)) (base : Headers) : Headers :=
  entries.foldl (fun acc kv => kv.2.foldl (fun a v => addH kv.1 v a) acc) base

/-- Re-adding the snapshotted headers onto the backend response
(`resp.Header.Add(key, h)` for every saved value). -/
def mergeTmpHeaders (m : TmpHeaderMap) (h : Headers) : Headers :=
  addAllFold m h

/-- The clearing loop `for k := range respTmpHeader { delete(respTmpHeader, k) }`
run before the map is put back into the pool. -/
def clearTmpMap (m : TmpHeaderMap) : TmpHeaderMap :=
  m.foldl (fun acc p => acc.filter (fun q => !(q.1 == p.1))) m

/-- `getErrorHandler`: the configured handler, or the default one which only
sets status 502 (Bad Gateway). -/
def applyErrorHandler (cfg : Config) (resp : Response) (e : Str) : Response :=
  match cfg.errorHandler with
  | some f => f resp e
  | none => { resp with status := 502 }

/-- The backend response with the snapshotted original headers re-added. -/
def mergedResponse (cfg : Config) (resp0 bresp : Response) : Response :=
  { bresp with headers := mergeTmpHeaders (snapshotOf cfg resp0) bresp.headers }

/-- The response after ServeHTTP's own sanitisation, as passed to the optional
response modifier (and delivered as-is when no modifier is configured). -/
def sanitizedResponse (cfg : Config) (resp0 bresp : Response) : Response :=
  { mergedResponse cfg resp0 bresp with
    headers := sanitizeResponseHeaders cfg.transferTrailer (mergedResponse cfg resp0 bresp).headers }

/-- Everything observable about one ServeHTTP execution: the request given to
the backend client, the final response, the errors the error handler was
invoked with (in order), whether the response modifier ran, the merged and
sanitised intermediate responses (present when dispatch succeeded), and
whether/with which contents the scratch map was put back into the pool. -/
structure ServeResult where
  backendReq : Request
  finalResp : Response
  errorCalls : List Str
  modifierInvoked : Bool
  mergedResp : Option Response
  sanitizedResp : Option Response
  poolPut : Bool
  poolPutMap : Option TmpHeaderMap

/-- `ReverseProxy.ServeHTTP` (reverse_proxy.go): snapshot, director,
sanitise, X-Forwarded-For, dispatch, merge snapshot back, put the cleared
scratch map back into the pool, sanitise the response, run the modifier,
routing errors to the error handler. On dispatch failure it returns early:
the modifier does not run and the scratch map is not put back. -/
def serveHTTP (cfg : Config) (req : Request) (resp0 : Response) (remoteIP : Option Str)
    (backend : Request → Except Str Response) : ServeResult :=
  let breq := backendRequest cfg req remoteIP
  match backend breq with
  | .error e =>
    { backendReq := breq, finalResp := applyErrorHandler cfg resp0 e, errorCalls := [e],
      modifierInvoked := false, mergedResp := none, sanitizedResp := none,
      poolPut := false, poolPutMap := none }
  | .ok bresp =>
    let merged := mergedResponse cfg resp0 bresp
    let sresp := sanitizedResponse cfg resp0 bresp
    let putMap := clearTmpMap (snapshotOf cfg resp0)
    match cfg.modifyResponse with
    | none =>
      { backendReq := breq, finalResp := sresp, errorCalls := [], modifierInvoked := false,
        mergedResp := some merged, sanitizedResp := some sresp,
        poolPut := true, poolPutMap := some putMap }
    | some m =>
      let out := m sresp
      match out.2 with
      | some e =>
        { backendReq := breq, finalResp := applyErrorHandler cfg out.1 e, errorCalls := [e],
          modifierInvoked := true, mergedResp := some merged, sanitizedResp := some sresp,
          poolPut := true, poolPutMap := some putMap }
      | none =>
        { backendReq := breq, finalResp := out.1, errorCalls := [], modifierInvoked := true,
          mergedResp := some merged, sanitizedResp := some sresp,
          poolPut := true, poolPutMap := some putMap }

/-- Go `strings.HasPrefix`. -/
def hasPrefixS (p l : Str) : Bool := List.isPrefixOf p l

/-- Go `strings.HasSuffix`. -/
def hasSuffixS (p l : Str) : Bool := List.isSuffixOf p l

/-- The target normalisation at the head of `JoinURLPath`: an absolute
(`http`-prefixed) target is used as is; a local form is prefixed with the
request host (inserting a slash when the target does not start with one),
and the trailing-slash flag is recomputed on the rewritten target. -/
def normalizeTarget (host target : Str) : Str × Bool :=
  if hasPrefixS (strOf "http") target then (target, hasSuffixS (strOf "/") target)
  else
    let t := if hasPrefixS (strOf "/") target then host ++ target else host ++ strOf "/" ++ target
    (t, hasSuffixS (strOf "/") t)

/-- `JoinURLPath` (reverse_proxy.go): compose the backend path/query from the
target string and the request's path, query string and host. The Go code
indexes `req.URI().Path()[0]`, so the request path is assumed non-empty
(hertz never produces an empty path); `aslash` is its leading-slash test. -/
def joinURLPath (reqPath reqQuery host target : Str) : Str :=
  let aslash := hasPrefixS (strOf "/") reqPath
  let nt := normalizeTarget host target
  let parts := splitOnChar '?' nt.1
  let b0 := parts.getD 0 []
  let b1 :=
    if aslash && nt.2 then b0 ++ reqPath.tail
    else if !aslash && !nt.2 then b0 ++ strOf "/" ++ reqPath
    else b0 ++ reqPath
  let b2 := if parts.length > 1 then b1 ++ strOf "?" ++ parts.getD 1 [] else b1
  if reqQuery.length > 0 then
    b2 ++ (if parts.length = 1 then strOf "?" else strOf "&") ++ reqQuery
  else b2

/-- The claim's reading of the JoinURLPath contract: split the whole query
suffix (everything after the first '?') off the normalised target, join the
paths under the same slash policy, reattach that whole query suffix with
'?', then append the request query with '?' or '&'. -/
def joinURLPathClaim (reqPath reqQuery host target : Str) : Str :=
  let aslash := hasPrefixS (strOf "/") reqPath
  let nt := normalizeTarget host target
  let base := upToChar '?' nt.1
  let hasQ := containsChar '?' nt.1
  let tq := fromChar '?' nt.1
  let b1 :=
    if aslash && nt.2 then base ++ reqPath.tail
    else if !aslash && !nt.2 then base ++ strOf "/" ++ reqPath
    else base ++ reqPath
  let b2 := if hasQ then b1 ++ strOf "?" ++ tq else b1
  if reqQuery.length > 0 then
    b2 ++ (if hasQ then strOf "&" else strOf "?") ++ reqQuery
  else b2

/-- The amended contract: as `joinURLPathClaim`, except the reattached target
query is only the segment between the first and second '?' of the normalised
target (text after a second '?' is discarded, as `strings.Split` element 1). -/
def joinURLPathAmended (reqPath reqQuery host target : Str) : Str :=
  let aslash := hasPrefixS (strOf "/") reqPath
  let nt := normalizeTarget host target
  let base := upToChar '?' nt.1
  let hasQ := containsChar '?' nt.1
  let tq := upToChar '?' (fromChar '?' nt.1)
  let b1 :=
    if aslash && nt.2 then base ++ reqPath.tail
    else if !aslash && !nt.2 then base ++ strOf "/" ++ reqPath
    else base ++ reqPath
  let b2 := if hasQ then b1 ++ strOf "?" ++ tq else b1
  if reqQuery.length > 0 then
    b2 ++ (if hasQ then strOf "&" else strOf "?") ++ reqQuery
  else b2

/-- The query-string part of a composed request URI: what follows the first
'?' (what the backend sees as `QueryString()`). -/
def queryOf (u : Str) : Str := fromChar '?' u

/-- `prepareForwardHeader` (ws_reverse_proxy.go): the whitelisted forward
headers for the backend dial. `clientIP` abstracts `c.ClientIP()`; `host`
and `scheme` abstract `c.Request.Host()` and `c.Request.URI().Scheme()`. -/
def prepareForwardHeader (inH : Headers) (host clientIP scheme : Str) : Headers :=
  let ov := (peekH (strOf "Origin") inH).getD []
  let f1 : Headers := if ov.isEmpty then [] else addH (strOf "Origin") ov []
  let pv := (peekH (strOf "Sec-Websocket-Protocol") inH).getD []
  let f2 := if pv.isEmpty then f1 else addH (strOf "Sec-WebSocket-Protocol") pv f1
  let cv := (peekH (strOf "Cookie") inH).getD []
  let f3 := if cv.isEmpty then f2 else addH (strOf "Cookie") cv f2
  let f4 := if host.isEmpty then f3 else setH (strOf "Host") host f3
  let chain :=
    match peekH xffName inH with
    | some prior => prior ++ strOf ", " ++ clientIP
    | none => clientIP
  let f5 := setH xffName chain f4
  let f6 := setH (strOf "X-Forwarded-Proto") (strOf "http") f5
  if scheme = strOf "https" then setH (strOf "X-Forwarded-Proto") (strOf "https") f6 else f6

/-- A `net/http.Response` as far as `wsCopyResponse` reads it: status code,
header (name to ordered values) and the body bytes. -/
structure HTTPResponseGo where
  statusCode : Nat
  header : List (Str × List Str)
  body : Str

/-- `wsCopyResponse`: add every header value of the partial backend response
onto the caller's response, set its status code, and copy the body. -/
def wsCopyResponse (dst : Response) (src : HTTPResponseGo) : Response :=
  { headers := addAllFold src.header dst.headers,
    status := src.statusCode,
    body := src.body }

/-- `ctx.AbortWithMsg(msg, statusCode)`: status set, body set to the message. -/
def abortWithMsg (resp : Response) (msg : Str) (code : Nat) : Response :=
  { resp with status := code, body := msg }

/-- The outcome of the backend dial in `WSReverseProxy.ServeHTTP`: success,
or failure with the error text and an optional partial HTTP response. -/
inductive WSDial where
  | ok
  | fail (e : Str) (partialResp : Option HTTPResponseGo)

/-- What the dial section of `WSReverseProxy.ServeHTTP` does before any
upgrade: on failure with a partial response, copy it onto the caller's
response; on failure without one, abort with 503 Service Unavailable; an
upgrade of the caller's connection is attempted only on success. -/
structure WSServeOutcome where
  upgradeAttempted : Bool
  resp : Response

def wsDialPhase (d : WSDial) (resp0 : Response) : WSServeOutcome :=
  match d with
  | .ok => { upgradeAttempted := true, resp := resp0 }
  | .fail e pr =>
    match pr with
    | some r => { upgradeAttempted := false, resp := wsCopyResponse resp0 r }
    | none => { upgradeAttempted := false, resp := abortWithMsg resp0 e 503 }

/-- A terminal report of one relay direction: whether `errors.As` recognises
it as a websocket close error (of either library). -/
structure RelayErr where
  isCloseErr : Bool
deriving DecidableEq

/-- The coordinating loop of `WSReverseProxy.ServeHTTP` over the reports it
receives, in arrival order: a non-close error is logged and the loop
continues; a close-shaped error breaks the loop. The result is `true` when
the loop exits, `false` when it has consumed every report that will ever
arrive and is still blocked on the (now forever-empty) channels. -/
def coordLoop : List RelayErr → Bool
  | [] => false
  | e :: rest => if e.isCloseErr then true else coordLoop rest

/-- One iteration outcome inside `replicateWSReqConn`/`replicateWSRespConn`:
a message forwarded, a read failure, or a write failure. -/
inductive RelayStep where
  | stepOk
  | readErr (isClose : Bool)
  | writeErr (isClose : Bool)

/-- The reports one directional task sends on its channel, given its
iteration outcomes: it loops on success and sends exactly one error and
stops at the first failure. -/
def taskReported : List RelayStep → List RelayErr
  | [] => []
  | .stepOk :: rest => taskReported rest
  | .readErr c :: _ => [{ isCloseErr := c }]
  | .writeErr c :: _ => [{ isCloseErr := c }]

/-- The four `clientBehaviorType` constants (Go `do` is `doPlain` here). -/
inductive CBType where
  | doPlain
  | doDeadline
  | doRedirects
  | doTimeout
deriving DecidableEq

/-- The dynamic type of the `param interface{}` field: absent, an int, a
`time.Time`, or a `time.Duration` (payloads abstracted as integers). -/
inductive CBParam where
  | unset
  | intP (n : Int)
  | timeP (t : Int)
  | durP (d : Int)
deriving DecidableEq

/-- The `clientBehavior` pair of reverse_proxy_client.go. -/
structure ClientBehavior where
  clientBehaviorType : CBType
  param : CBParam
deriving DecidableEq

def ClientDo : ClientBehavior := { clientBehaviorType := .doPlain, param := .unset }

def ClientDoRedirects (n : Int) : ClientBehavior :=
  { clientBehaviorType := .doRedirects, param := .intP n }

def ClientDoDeadline (t : Int) : ClientBehavior :=
  { clientBehaviorType := .doDeadline, param := .timeP t }

/-- `ClientDoTimeout(param time.Duration)`: stores a duration. -/
def ClientDoTimeout (d : Int) : ClientBehavior :=
  { clientBehaviorType := .doTimeout, param := .durP d }

/-- What `doClientBehavior` does before touching the network: either it
reaches a backend client call of the given kind with the asserted parameter,
or a Go type assertion (`param.(time.Time)` / `param.(int)`) fails, which
panics. The `doTimeout` arm asserts `time.Time` (and then calls
`DoDeadline`), exactly as the source does. -/
inductive DispatchOutcome where
  | call (kind : CBType) (p : CBParam)
  | panicked
deriving DecidableEq

def doClientBehaviorDispatch (cb : ClientBehavior) : DispatchOutcome :=
  match cb.clientBehaviorType with
  | .doPlain => .call .doPlain .unset
  | .doDeadline =>
    match cb.param with
    | .timeP t => .call .doDeadline (.timeP t)
    | _ => .panicked
  | .doRedirects =>
    match cb.param with
    | .intP n => .call .doRedirects (.intP n)
    | _ => .panicked
  | .doTimeout =>
    match cb.param with
    | .timeP t => .call .doTimeout (.timeP t)
    | _ => .panicked

/-- A `websocket.Dialer`: the default one or a custom one. -/
inductive DialerM where
  | defaultDialer
  | custom (id : Nat)
deriving DecidableEq

/-- A `HertzUpgrader`: its read/write buffer sizes (the fields the defaults
set), plus an id distinguishing custom upgraders. -/
structure UpgraderM where
  readBufferSize : Nat
  writeBufferSize : Nat
deriving DecidableEq

/-- The WS `Options` record (ws_reverse_proxy_option.go); the director is an
opaque function identity. -/
structure OptionsM where
  director : Option Nat
  dialer : DialerM
  upgrader : UpgraderM
  dynamicRoute : Bool
deriving DecidableEq

/-- `DefaultOptions`. -/
def DefaultOptionsM : OptionsM :=
  { director := none, dialer := .defaultDialer,
    upgrader := { readBufferSize := 1024, writeBufferSize := 1024 }, dynamicRoute := false }

/-- The four `Option` constructors `WithDirector`, `WithDialer`,
`WithUpgrader`, `WithDynamicRoute`. -/
inductive WSOptionM where
  | withDirector (f : Nat)
  | withDialer (d : DialerM)
  | withUpgrader (u : UpgraderM)
  | withDynamicRoute
deriving DecidableEq

/-- Applying one option function to an `Options` value. -/
def applyOpt (o : OptionsM) : WSOptionM → OptionsM
  | .withDirector f => { o with director := some f }
  | .withDialer d => { o with dialer := d }
  | .withUpgrader u => { o with upgrader := u }
  | .withDynamicRoute => { o with dynamicRoute := true }

/-- `newOptions`: copy the Director/Dialer/Upgrader defaults (DynamicRoute
starts at its zero value, false), then apply the supplied options in order. -/
def newOptionsM (opts : List WSOptionM) : OptionsM :=
  List.foldl applyOpt
    { director := DefaultOptionsM.director, dialer := DefaultOptionsM.dialer,
      upgrader := DefaultOptionsM.upgrader, dynamicRoute := false } opts

/-- The `WSReverseProxy` value. -/
structure WSReverseProxyM where
  target : Str
  options : OptionsM
deriving DecidableEq

/-- `NewWSReverseProxy`: panic (modelled as `Except.error` carrying the panic
message) on an empty target, otherwise the proxy record. -/
def newWSReverseProxy (target : Str) (opts : List WSOptionM) : Except Str WSReverseProxyM :=
  if target.isEmpty then .error (strOf "target string must not be empty")
  else .ok { target := target, options := newOptionsM opts }

/-- The C1 claim text, formalised at one execution of `serveHTTP` (weakened to
the two conjuncts the counterexample below refutes, so that refuting this
proposition refutes the claim): with the hop-by-hop set taken as the static
list plus every non-empty trimmed `Connection` token, and the exception
triggered by a case-insensitive `Te: trailers` match, (i) every name of the
hop-by-hop set other than the excepted `Trailer`/`Te` is absent from the
request delivered to the backend and from the response delivered to the
caller, and (ii) under the exception exactly one `Te: trailers` header is
present on the outbound request. -/
abbrev c1OriginalClaimAt (cfg : Config) (req : Request) (resp0 : Response)
    (rip : Option Str) (backend : Request → Except Str Response) : Prop :=
  let R := serveHTTP cfg req resp0 rip backend
  let exc := cfg.transferTrailer = true ∧ checkTeHeaderCI req.headers = true
  (∀ n ∈ hopHeadersL ++ connTokens req.headers,
      (exc ∧ (n = trailerName ∨ n = teName)) ∨
        (n ∉ namesOf R.backendReq.headers ∧ n ∉ namesOf R.finalResp.headers))
    ∧ (exc → peekAllH teName R.backendReq.headers = [trailersVal])

/-- C1 counterexample input: trailer forwarding on, a `Connection` header
listing `X-Forwarded-For`, an uppercase `Te: TRAILERS`, and a response
modifier that adds an `Upgrade` header. -/
def cfgC1x : Config :=
  { transferTrailer := true, saveOriginResHeader := false, director := none,
    modifyResponse := some (fun r => ({ r with headers := addH (strOf "Upgrade") (strOf "foo") r.headers }, none)),
    errorHandler := none }

def reqC1x : Request :=
  { headers :=
      [(strOf "Connection", strOf "X-Forwarded-For"),
       (strOf "X-Forwarded-For", strOf "1.2.3.4"),
       (strOf "Te", strOf "TRAILERS"),
       (strOf "Trailer", strOf "Expires")],
    connClose := false }

def respEmpty : Response := { headers := [], status := 200, body := [] }

def backendC1x : Request → Except Str Response :=
  fun _ => .ok { headers := [(strOf "Content-Type", strOf "text/plain")], status := 200, body := strOf "hi" }

/-- C1 witness input: trailer forwarding on, a genuine `Te: trailers`, a
`Keep-Alive` hop header and a `Trailer` header; no modifier. -/
def cfgC1w : Config :=
  { transferTrailer := true, saveOriginResHeader := false, director := none,
    modifyResponse := none, errorHandler := none }

def reqC1w : Request :=
  { headers :=
      [(strOf "Te", strOf "trailers"),
       (strOf "Keep-Alive", strOf "30"),
       (strOf "Trailer", strOf "Expires")],
    connClose := false }

def backendOkEmpty : Request → Except Str Response := fun _ => .ok respEmpty

/-- C9 concrete input: origin-header saving on (non-empty snapshot), default
error handler, and a backend whose dispatch fails. -/
def cfgC9x : Config :=
  { transferTrailer := false, saveOriginResHeader := true, director := none,
    modifyResponse := none, errorHandler := none }

def respC9x : Response :=
  { headers := [(strOf "X-Origin-Header", strOf "kept")], status := 200, body := [] }

def backendFailC9 : Request → Except Str Response :=
  fun _ => .error (strOf "connection refused")

/-- C5 witness input: a modifier that bumps the status and fails. -/
def modC5 : Response → Response × Option Str :=
  fun r => ({ r with status := r.status + 1 }, some (strOf "boom"))

def cfgC5w : Config :=
  { transferTrailer := false, saveOriginResHeader := false, director := none,
    modifyResponse := some modC5, errorHandler := none }

theorem namesOf_cons (p : Str × Str) (t : Headers) : namesOf (p :: t) = p.1 :: namesOf t := rfl

theorem mem_namesOf_delName {n k : Str} {h : Headers} :
    n ∈ namesOf (delName k h) ↔ n ∈ namesOf h ∧ n ≠ k := by
  induction h with
  | nil => simp [delName, namesOf]
  | cons p t ih =>
    by_cases hp : p.1 = k
    · rw [delName, if_pos hp, ih, namesOf_cons]
      subst hp
      simp only [List.mem_cons]
      constructor
      · rintro ⟨hn, hk⟩
        exact ⟨Or.inr hn, hk⟩
      · rintro ⟨hn | hn, hk⟩
        · exact absurd hn hk
        · exact ⟨hn, hk⟩
    · rw [delName, if_neg hp, namesOf_cons, namesOf_cons]
      simp only [List.mem_cons, ih]
      constructor
      · rintro (hn | ⟨hn, hk⟩)
        · exact ⟨Or.inl hn, hn ▸ fun hc => hp hc⟩
        · exact ⟨Or.inr hn, hk⟩
      · rintro ⟨hn | hn, hk⟩
        · exact Or.inl hn
        · exact Or.inr ⟨hn, hk⟩

theorem peekAllH_delName_ne {n k : Str} (hnk : n ≠ k) (h : Headers) :
    peekAllH n (delName k h) = peekAllH n h := by
  induction h with
  | nil => rfl
  | cons p t ih =>
    by_cases hp : p.1 = k
    · rw [delName, if_pos hp, ih, peekAllH, if_neg (fun hc => hnk (hc.symm.trans hp))]
    · by_cases hn : p.1 = n
      · rw [delName, if_neg hp, peekAllH, if_pos hn, peekAllH, if_pos hn, ih]
      · rw [delName, if_neg hp, peekAllH, if_neg hn, peekAllH, if_neg hn, ih]

theorem peekAllH_delName_self (k : Str) (h : Headers) :
    peekAllH k (delName k h) = [] := by
  induction h with
  | nil => rfl
  | cons p t ih =>
    by_cases hp : p.1 = k
    · rw [delName, if_pos hp, ih]
    · rw [delName, if_neg hp, peekAllH, if_neg hp, ih]

theorem peekAllH_append (k : Str) (h1 h2 : Headers) :
    peekAllH k (h1 ++ h2) = peekAllH k h1 ++ peekAllH k h2 := by
  induction h1 with
  | nil => rfl
  | cons p t ih =>
    by_cases hp : p.1 = k
    · rw [List.cons_append, peekAllH, if_pos hp, peekAllH, if_pos hp, ih, List.cons_append]
    · rw [List.cons_append, peekAllH, if_neg hp, peekAllH, if_neg hp, ih]

theorem peekAllH_addH_self (k v : Str) (h : Headers) :
    peekAllH k (addH k v h) = peekAllH k h ++ [v] := by
  have hx : peekAllH k [(k, v)] = [v] := by simp [peekAllH]
  rw [addH, peekAllH_append, hx]

theorem peekAllH_addH_ne {n k : Str} (hnk : n ≠ k) (v : Str) (h : Headers) :
    peekAllH n (addH k v h) = peekAllH n h := by
  have hx : peekAllH n [(k, v)] = [] := by
    rw [peekAllH, if_neg (fun hc => hnk hc.symm), peekAllH]
  rw [addH, peekAllH_append, hx, List.append_nil]

theorem peekAllH_setH_self (k v : Str) (h : Headers) :
    peekAllH k (setH k v h) = [v] := by
  rw [setH, peekAllH_addH_self, peekAllH_delName_self, List.nil_append]

theorem peekAllH_setH_ne {n k : Str} (hnk : n ≠ k) (v : Str) (h : Headers) :
    peekAllH n (setH k v h) = peekAllH n h := by
  rw [setH, peekAllH_addH_ne hnk, peekAllH_delName_ne hnk]

theorem mem_namesOf_addH {n k v : Str} {h : Headers} :
    n ∈ namesOf (addH k v h) ↔ n ∈ namesOf h ∨ n = k := by
  simp [addH, namesOf]

theorem mem_namesOf_setH {n k v : Str} {h : Headers} :
    n ∈ namesOf (setH k v h) ↔ (n ∈ namesOf h ∧ n ≠ k) ∨ n = k := by
  rw [setH, mem_namesOf_addH, mem_namesOf_delName]

theorem delFoldNames_cons (t : Str) (ts : List Str) (h : Headers) :
    delFoldNames (t :: ts) h = delFoldNames ts (delName t h) := rfl

theorem mem_namesOf_delFoldNames {n : Str} {toks : List Str} {h : Headers} :
    n ∈ namesOf (delFoldNames toks h) ↔ n ∈ namesOf h ∧ n ∉ toks := by
  induction toks generalizing h with
  | nil => simp [delFoldNames]
  | cons t ts ih =>
    rw [delFoldNames_cons, ih, mem_namesOf_delName]
    simp only [List.mem_cons]
    constructor
    · rintro ⟨⟨hn, hnt⟩, hts⟩
      exact ⟨hn, fun hc => hc.elim hnt hts⟩
    · rintro ⟨hn, hc⟩
      exact ⟨⟨hn, fun hx => hc (Or.inl hx)⟩, fun hx => hc (Or.inr hx)⟩

theorem peekAllH_delFoldNames_notMem {n : Str} {toks : List Str} (hn : n ∉ toks) (h : Headers) :
    peekAllH n (delFoldNames toks h) = peekAllH n h := by
  induction toks generalizing h with
  | nil => rfl
  | cons t ts ih =>
    rw [delFoldNames_cons, ih (fun hc => hn (List.mem_cons_of_mem t hc)),
      peekAllH_delName_ne
        (show n ≠ t from fun hc => hn (by rw [hc]; exact List.mem_cons_self t ts))]

theorem stripHopHeaders_false_eq (h : Headers) :
    stripHopHeaders false h =
      delFoldNames hopHeadersL h := rfl

theorem stripHopHeaders_true_eq (h : Headers) :
    stripHopHeaders true h = delFoldNames strippedHopList h := rfl

theorem mem_hopHeadersL_iff {n : Str} :
    n ∈ hopHeadersL ↔ n ∈ strippedHopList ∨ n = trailerName := by
  simp only [hopHeadersL, strippedHopList, trailerName, List.mem_cons, List.not_mem_nil, or_false]
  tauto

theorem mem_namesOf_stripHopHeaders {n : Str} {tt : Bool} {h : Headers}
    (hn : n ∈ namesOf (stripHopHeaders tt h)) :
    n ∈ namesOf h ∧ (n ∈ hopHeadersL → tt = true ∧ n = trailerName) := by
  cases tt with
  | false =>
    rw [stripHopHeaders_false_eq, mem_namesOf_delFoldNames] at hn
    exact ⟨hn.1, fun hc => absurd hc hn.2⟩
  | true =>
    rw [stripHopHeaders_true_eq, mem_namesOf_delFoldNames] at hn
    refine ⟨hn.1, fun hc => ⟨rfl, ?_⟩⟩
    rcases mem_hopHeadersL_iff.mp hc with hx | hx
    · exact absurd hx hn.2
    · exact hx

theorem peekAllH_stripHopHeaders_trailer (h : Headers) :
    peekAllH trailerName (stripHopHeaders true h) = peekAllH trailerName h := by
  rw [stripHopHeaders_true_eq]
  exact peekAllH_delFoldNames_notMem (by decide) h

theorem sanitizeRequestHeaders_pos {h : Headers} (hte : checkTeHeader h = true) :
    sanitizeRequestHeaders true h =
      setH teName trailersVal (stripHopHeaders true (removeConnHeaders h)) := by
  unfold sanitizeRequestHeaders
  rw [hte]
  rfl

theorem sanitizeRequestHeaders_negTe {h : Headers} (hte : checkTeHeader h = false) :
    sanitizeRequestHeaders true h = stripHopHeaders true (removeConnHeaders h) := by
  unfold sanitizeRequestHeaders
  rw [hte]
  rfl

theorem sanitizeRequestHeaders_negTT {h : Headers} :
    sanitizeRequestHeaders false h = stripHopHeaders false (removeConnHeaders h) := rfl

theorem mem_namesOf_sanitizeRequestHeaders {n : Str} {tt : Bool} {h : Headers}
    (hn : n ∈ namesOf (sanitizeRequestHeaders tt h)) :
    (tt = true ∧ checkTeHeader h = true ∧ n = teName) ∨
      (n ∈ namesOf h ∧ n ∉ connTokens h ∧ (n ∈ hopHeadersL → tt = true ∧ n = trailerName)) := by
  have strip :
      n ∈ namesOf (stripHopHeaders tt (removeConnHeaders h)) →
        n ∈ namesOf h ∧ n ∉ connTokens h ∧ (n ∈ hopHeadersL → tt = true ∧ n = trailerName) := by
    intro hx
    obtain ⟨h1, h2⟩ := mem_namesOf_stripHopHeaders hx
    rw [removeConnHeaders, mem_namesOf_delFoldNames] at h1
    exact ⟨h1.1, h1.2, h2⟩
  cases tt with
  | false => exact Or.inr (strip (by rwa [sanitizeRequestHeaders_negTT] at hn))
  | true =>
    by_cases hte : checkTeHeader h = true
    · rw [sanitizeRequestHeaders_pos hte, mem_namesOf_setH] at hn
      rcases hn with ⟨hx, _⟩ | hx
      · exact Or.inr (strip hx)
      · exact Or.inl ⟨rfl, hte, hx⟩
    · rw [Bool.not_eq_true] at hte
      exact Or.inr (strip (by rwa [sanitizeRequestHeaders_negTe hte] at hn))

theorem peekAllH_te_sanitizeRequestHeaders {h : Headers} (hte : checkTeHeader h = true) :
    peekAllH teName (sanitizeRequestHeaders true h) = [trailersVal] := by
  rw [sanitizeRequestHeaders_pos hte, peekAllH_setH_self]

theorem peekAllH_trailer_sanitizeRequestHeaders {h : Headers}
    (hnt : trailerName ∉ connTokens h) :
    peekAllH trailerName (sanitizeRequestHeaders true h) = peekAllH trailerName h := by
  have base :
      peekAllH trailerName (stripHopHeaders true (removeConnHeaders h)) = peekAllH trailerName h := by
    rw [peekAllH_stripHopHeaders_trailer, removeConnHeaders, peekAllH_delFoldNames_notMem hnt]
  cases hte : checkTeHeader h with
  | false => rw [sanitizeRequestHeaders_negTe hte, base]
  | true =>
    rw [sanitizeRequestHeaders_pos hte, peekAllH_setH_ne (by decide), base]

theorem mem_namesOf_sanitizeResponseHeaders {n : Str} {tt : Bool} {h : Headers}
    (hn : n ∈ namesOf (sanitizeResponseHeaders tt h)) :
    n ∈ namesOf h ∧ n ∉ connTokens h ∧ (n ∈ hopHeadersL → tt = true ∧ n = trailerName) := by
  rw [sanitizeResponseHeaders] at hn
  obtain ⟨h1, h2⟩ := mem_namesOf_stripHopHeaders hn
  rw [removeConnHeaders, mem_namesOf_delFoldNames] at h1
  exact ⟨h1.1, h1.2, h2⟩

theorem peekAllH_trailer_sanitizeResponseHeaders {h : Headers}
    (hnt : trailerName ∉ connTokens h) :
    peekAllH trailerName (sanitizeResponseHeaders true h) = peekAllH trailerName h := by
  rw [sanitizeResponseHeaders, peekAllH_stripHopHeaders_trailer, removeConnHeaders,
    peekAllH_delFoldNames_notMem hnt]

theorem mem_namesOf_xffStep {n : Str} {rip : Option Str} {h : Headers}
    (hn : n ∈ namesOf (xffStep rip h)) : n = xffName ∨ n ∈ namesOf h := by
  cases rip with
  | none => exact Or.inr hn
  | some ip =>
    simp only [xffStep] at hn
    split at hn
    · exact (mem_namesOf_addH.mp hn).elim Or.inr Or.inl
    · split at hn
      · exact Or.inr hn
      · exact (mem_namesOf_addH.mp hn).elim Or.inr Or.inl

theorem peekAllH_xffStep_ne {n : Str} (hne : n ≠ xffName) (rip : Option Str) (h : Headers) :
    peekAllH n (xffStep rip h) = peekAllH n h := by
  cases rip with
  | none => rfl
  | some ip =>
    simp only [xffStep]
    split
    · rw [peekAllH_addH_ne hne]
    · split
      · rfl
      · rw [peekAllH_addH_ne hne]

theorem clearFold_eq_nil :
    ∀ (l acc : TmpHeaderMap), (∀ q ∈ acc, ∃ p ∈ l, q.1 = p.1) →
      l.foldl (fun acc p => acc.filter (fun q => !(q.1 == p.1))) acc = [] := by
  intro l
  induction l with
  | nil =>
    intro acc hacc
    have : acc = [] := by
      rw [List.eq_nil_iff_forall_not_mem]
      intro q hq
      rcases hacc q hq with ⟨p, hp, _⟩
      exact absurd hp (List.not_mem_nil p)
    rw [this]
    rfl
  | cons p ps ih =>
    intro acc hacc
    rw [List.foldl_cons]
    apply ih
    intro q hq
    rw [List.mem_filter] at hq
    obtain ⟨hqa, hqf⟩ := hq
    have hne : q.1 ≠ p.1 := by simpa using hqf
    rcases hacc q hqa with ⟨p', hp', he⟩
    rcases List.mem_cons.mp hp' with rfl | hmem
    · exact absurd he hne
    · exact ⟨p', hmem, he⟩

theorem clearTmpMap_eq_nil (m : TmpHeaderMap) : clearTmpMap m = [] :=
  clearFold_eq_nil m m (fun q hq => ⟨q, hq, rfl⟩)

theorem serveHTTP_error {cfg : Config} {req : Request} {resp0 : Response} {rip : Option Str}
    {backend : Request → Except Str Response} {e : Str}
    (hb : backend (backendRequest cfg req rip) = .error e) :
    serveHTTP cfg req resp0 rip backend =
      { backendReq := backendRequest cfg req rip,
        finalResp := applyErrorHandler cfg resp0 e, errorCalls := [e],
        modifierInvoked := false, mergedResp := none, sanitizedResp := none,
        poolPut := false, poolPutMap := none } := by
  unfold serveHTTP
  simp only [hb]

theorem serveHTTP_ok_noModifier {cfg : Config} {req : Request} {resp0 : Response}
    {rip : Option Str} {backend : Request → Except Str Response} {bresp : Response}
    (hb : backend (backendRequest cfg req rip) = .ok bresp)
    (hm : cfg.modifyResponse = none) :
    serveHTTP cfg req resp0 rip backend =
      { backendReq := backendRequest cfg req rip,
        finalResp := sanitizedResponse cfg resp0 bresp, errorCalls := [],
        modifierInvoked := false, mergedResp := some (mergedResponse cfg resp0 bresp),
        sanitizedResp := some (sanitizedResponse cfg resp0 bresp),
        poolPut := true, poolPutMap := some (clearTmpMap (snapshotOf cfg resp0)) } := by
  unfold serveHTTP
  simp only [hb, hm]

theorem serveHTTP_ok_modifierErr {cfg : Config} {req : Request} {resp0 : Response}
    {rip : Option Str} {backend : Request → Except Str Response} {bresp : Response}
    {m : Response → Response × Option Str} {r2 : Response} {e : Str}
    (hb : backend (backendRequest cfg req rip) = .ok bresp)
    (hm : cfg.modifyResponse = some m)
    (hout : m (sanitizedResponse cfg resp0 bresp) = (r2, some e)) :
    serveHTTP cfg req resp0 rip backend =
      { backendReq := backendRequest cfg req rip,
        finalResp := applyErrorHandler cfg r2 e, errorCalls := [e],
        modifierInvoked := true, mergedResp := some (mergedResponse cfg resp0 bresp),
        sanitizedResp := some (sanitizedResponse cfg resp0 bresp),
        poolPut := true, poolPutMap := some (clearTmpMap (snapshotOf cfg resp0)) } := by
  unfold serveHTTP
  simp only [hb, hm, hout]

theorem serveHTTP_ok_modifierOk {cfg : Config} {req : Request} {resp0 : Response}
    {rip : Option Str} {backend : Request → Except Str Response} {bresp : Response}
    {m : Response → Response × Option Str} {r2 : Response}
    (hb : backend (backendRequest cfg req rip) = .ok bresp)
    (hm : cfg.modifyResponse = some m)
    (hout : m (sanitizedResponse cfg resp0 bresp) = (r2, none)) :
    serveHTTP cfg req resp0 rip backend =
      { backendReq := backendRequest cfg req rip,
        finalResp := r2, errorCalls := [],
        modifierInvoked := true, mergedResp := some (mergedResponse cfg resp0 bresp),
        sanitizedResp := some (sanitizedResponse cfg resp0 bresp),
        poolPut := true, poolPutMap := some (clearTmpMap (snapshotOf cfg resp0)) } := by
  unfold serveHTTP
  simp only [hb, hm, hout]

/-- Claim C4: when the backend dispatch fails, ServeHTTP invokes the error
handler exactly once with that error and terminates without invoking the
response modifier; with no custom error handler the response status becomes
502 and the body stays as it was (empty for a fresh response, hence no body). -/
theorem c4_dispatch_failure (cfg : Config) (req : Request) (resp0 : Response)
    (rip : Option Str) (backend : Request → Except Str Response) (e : Str)
    (hb : backend (backendRequest cfg req rip) = .error e) :
    (serveHTTP cfg req resp0 rip backend).errorCalls = [e]
    ∧ (serveHTTP cfg req resp0 rip backend).modifierInvoked = false
    ∧ (cfg.errorHandler = none →
        (serveHTTP cfg req resp0 rip backend).finalResp.status = 502
        ∧ (serveHTTP cfg req resp0 rip backend).finalResp.body = resp0.body) := by
  rw [serveHTTP_error hb]
  refine ⟨rfl, rfl, fun hh => ?_⟩
  simp [applyErrorHandler, hh]

/-- Witness for C4 at a concrete failing dispatch. -/
theorem c4_dispatch_failure_witness :
    (serveHTTP cfgC9x { headers := [], connClose := false } respC9x (some (strOf "1.2.3.4"))
        backendFailC9).errorCalls = [strOf "connection refused"]
    ∧ (serveHTTP cfgC9x { headers := [], connClose := false } respC9x (some (strOf "1.2.3.4"))
        backendFailC9).modifierInvoked = false
    ∧ (serveHTTP cfgC9x { headers := [], connClose := false } respC9x (some (strOf "1.2.3.4"))
        backendFailC9).finalResp.status = 502
    ∧ (serveHTTP cfgC9x { headers := [], connClose := false } respC9x (some (strOf "1.2.3.4"))
        backendFailC9).finalResp.body = [] := by
  have H := c4_dispatch_failure cfgC9x { headers := [], connClose := false } respC9x
    (some (strOf "1.2.3.4")) backendFailC9 (strOf "connection refused") rfl
  obtain ⟨h1, h2, h3⟩ := H
  have h4 := h3 rfl
  exact ⟨h1, h2, h4.1, h4.2⟩

/-- Claim C5: when dispatch succeeds and the configured response modifier
returns an error, ServeHTTP invokes the error handler with exactly that
error, on the response exactly as the modifier left it (no rollback); the
default handler then only overwrites the status with 502. -/
theorem c5_modifier_error (cfg : Config) (req : Request) (resp0 : Response)
    (rip : Option Str) (backend : Request → Except Str Response)
    (m : Response → Response × Option Str) (bresp r2 : Response) (e : Str)
    (hm : cfg.modifyResponse = some m)
    (hb : backend (backendRequest cfg req rip) = .ok bresp)
    (hout : m (sanitizedResponse cfg resp0 bresp) = (r2, some e)) :
    (serveHTTP cfg req resp0 rip backend).errorCalls = [e]
    ∧ (serveHTTP cfg req resp0 rip backend).modifierInvoked = true
    ∧ (serveHTTP cfg req resp0 rip backend).finalResp = applyErrorHandler cfg r2 e
    ∧ (cfg.errorHandler = none →
        (serveHTTP cfg req resp0 rip backend).finalResp = { r2 with status := 502 }) := by
  rw [serveHTTP_ok_modifierErr hb hm hout]
  refine ⟨rfl, rfl, rfl, fun hh => ?_⟩
  simp [applyErrorHandler, hh]

/-- Witness for C5 at a concrete run: the failing modifier bumped the status
to 201 and that mutation reaches the error handler without rollback. -/
theorem c5_modifier_error_witness :
    (serveHTTP cfgC5w { headers := [], connClose := false } respEmpty (some (strOf "1.2.3.4"))
        backendOkEmpty).errorCalls = [strOf "boom"]
    ∧ (serveHTTP cfgC5w { headers := [], connClose := false } respEmpty (some (strOf "1.2.3.4"))
        backendOkEmpty).finalResp = { headers := [], status := 502, body := [] } := by
  have H := c5_modifier_error cfgC5w { headers := [], connClose := false } respEmpty
    (some (strOf "1.2.3.4")) backendOkEmpty modC5
    respEmpty { headers := [], status := 201, body := [] } (strOf "boom") rfl rfl (by decide)
  exact ⟨H.1, (H.2.2.2 rfl).trans (by decide)⟩

/-- Claim C6 (code bug): a proxy built with `ClientDoTimeout(d)` stores a
`time.Duration` in the behavior's `param`, but `doClientBehavior`'s
`doTimeout` arm asserts `param.(time.Time)`; the failed type assertion
panics before any backend call, while the other three strategies reach
their backend client call. -/
theorem c6_timeout_strategy :
    (∀ d : Int, doClientBehaviorDispatch (ClientDoTimeout d) = DispatchOutcome.panicked)
    ∧ doClientBehaviorDispatch ClientDo = DispatchOutcome.call CBType.doPlain CBParam.unset
    ∧ (∀ t : Int,
        doClientBehaviorDispatch (ClientDoDeadline t)
          = DispatchOutcome.call CBType.doDeadline (CBParam.timeP t))
    ∧ (∀ n : Int,
        doClientBehaviorDispatch (ClientDoRedirects n)
          = DispatchOutcome.call CBType.doRedirects (CBParam.intP n)) :=
  ⟨fun _ => rfl, rfl, fun _ => rfl, fun _ => rfl⟩

/-- Claim C8 (code bug): the coordinating loop exits exactly when some
received report is a close-shaped error; when both directional tasks report
abnormal (non-close) errors, it consumes both reports and then waits forever
on the empty channels. Each directional task sends at most one report. -/
theorem c8_relay_termination :
    coordLoop [{ isCloseErr := false }, { isCloseErr := false }] = false
    ∧ (∀ l : List RelayErr, coordLoop l = l.any (fun e => e.isCloseErr))
    ∧ (∀ steps : List RelayStep, (taskReported steps).length ≤ 1) := by
  refine ⟨rfl, ?_, ?_⟩
  · intro l
    induction l with
    | nil => rfl
    | cons e rest ih =>
      cases he : e.isCloseErr <;> simp [coordLoop, he, ih]
  · intro steps
    induction steps with
    | nil => simp [taskReported]
    | cons s rest ih =>
      cases s with
      | stepOk => simpa [taskReported] using ih
      | readErr c => simp [taskReported]
      | writeErr c => simp [taskReported]

/-- Claim C9 counterexample: on a dispatch-failure run the scratch map is not
returned to the pool (`poolPut = false`), refuting "released back to the pool
on every exit path — including the early return taken when backend dispatch
fails". -/
theorem c9_pool_counterexample :
    (serveHTTP cfgC9x { headers := [], connClose := false } respC9x (some (strOf "7.7.7.7"))
      backendFailC9).poolPut = false := rfl

/-- Claim C9 as amended: on every successful dispatch the scratch map is
returned to the pool and is empty at that moment; on the dispatch-failure
early return it is abandoned and never returned (so only empty maps ever
re-enter the pool, and no header data can leak between requests through it). -/
theorem c9_pool_release (cfg : Config) (req : Request) (resp0 : Response)
    (rip : Option Str) (backend : Request → Except Str Response) :
    (∀ e, backend (backendRequest cfg req rip) = .error e →
        (serveHTTP cfg req resp0 rip backend).poolPut = false
        ∧ (serveHTTP cfg req resp0 rip backend).poolPutMap = none)
    ∧ (∀ bresp, backend (backendRequest cfg req rip) = .ok bresp →
        (serveHTTP cfg req resp0 rip backend).poolPut = true
        ∧ (serveHTTP cfg req resp0 rip backend).poolPutMap = some []) := by
  constructor
  · intro e hb
    rw [serveHTTP_error hb]
    exact ⟨rfl, rfl⟩
  · intro bresp hb
    rcases hm : cfg.modifyResponse with _ | m
    · rw [serveHTTP_ok_noModifier hb hm, clearTmpMap_eq_nil]
      exact ⟨rfl, rfl⟩
    · rcases hout : m (sanitizedResponse cfg resp0 bresp) with ⟨r2, oe⟩
      cases oe with
      | none =>
        rw [serveHTTP_ok_modifierOk hb hm hout, clearTmpMap_eq_nil]
        exact ⟨rfl, rfl⟩
      | some e =>
        rw [serveHTTP_ok_modifierErr hb hm hout, clearTmpMap_eq_nil]
        exact ⟨rfl, rfl⟩

/-- Witness for C9 (amended) at one failing and one succeeding dispatch. -/
theorem c9_pool_release_witness :
    (serveHTTP cfgC9x { headers := [], connClose := false } respC9x (some (strOf "7.7.7.7"))
        backendFailC9).poolPutMap = none
    ∧ (serveHTTP cfgC9x { headers := [], connClose := false } respC9x (some (strOf "7.7.7.7"))
        backendOkEmpty).poolPut = true
    ∧ (serveHTTP cfgC9x { headers := [], connClose := false } respC9x (some (strOf "7.7.7.7"))
        backendOkEmpty).poolPutMap = some [] := by
  have H1 := (c9_pool_release cfgC9x { headers := [], connClose := false } respC9x
    (some (strOf "7.7.7.7")) backendFailC9).1 (strOf "connection refused") rfl
  have H2 := (c9_pool_release cfgC9x { headers := [], connClose := false } respC9x
    (some (strOf "7.7.7.7")) backendOkEmpty).2 respEmpty rfl
  exact ⟨H1.2, H2.1, H2.2⟩

/-- Claim C10: `NewWSReverseProxy` panics exactly on the empty target; for a
non-empty target it returns a proxy carrying that target and the default
options (no director, default dialer, 1024-byte-buffer upgrader, dynamic
routing off) overridden in order by the supplied options. -/
theorem c10_ws_constructor :
    (∀ (target : Str) (opts : List WSOptionM),
        newWSReverseProxy target opts = .error (strOf "target string must not be empty")
          ↔ target = [])
    ∧ (∀ (target : Str) (opts : List WSOptionM), target ≠ [] →
        newWSReverseProxy target opts =
          .ok { target := target,
                options := List.foldl applyOpt
                  { director := none, dialer := .defaultDialer,
                    upgrader := { readBufferSize := 1024, writeBufferSize := 1024 },
                    dynamicRoute := false } opts }) := by
  constructor
  · intro target opts
    constructor
    · intro h
      cases target with
      | nil => rfl
      | cons a l =>
        unfold newWSReverseProxy at h
        rw [if_neg (by intro hc; exact Bool.noConfusion hc)] at h
        exact Except.noConfusion h
    · intro h
      subst h
      rfl
  · intro target opts ht
    have hne : ¬ (target.isEmpty = true) := by
      cases target with
      | nil => exact absurd rfl ht
      | cons a l => intro hc; exact Bool.noConfusion hc
    unfold newWSReverseProxy
    rw [if_neg hne]
    rfl

/-- Witness for C10: a concrete non-empty target with two options applied in
order on top of the defaults. -/
theorem c10_ws_constructor_witness :
    newWSReverseProxy (strOf "ws://backend")
        [WSOptionM.withDynamicRoute,
         WSOptionM.withUpgrader { readBufferSize := 64, writeBufferSize := 64 }] =
      .ok { target := strOf "ws://backend",
            options := { director := none, dialer := .defaultDialer,
                         upgrader := { readBufferSize := 64, writeBufferSize := 64 },
                         dynamicRoute := true } } := by
  have H := (c10_ws_constructor).2 (strOf "ws://backend")
    [WSOptionM.withDynamicRoute,
     WSOptionM.withUpgrader { readBufferSize := 64, writeBufferSize := 64 }] (by decide)
  exact H.trans (by rfl)

theorem peekAllH_eq_nil_of_peekH_none {k : Str} {h : Headers} (hp : peekH k h = none) :
    peekAllH k h = [] := by
  induction h with
  | nil => rfl
  | cons p t ih =>
    by_cases hx : p.1 = k
    · rw [peekH, if_pos hx] at hp
      exact Option.noConfusion hp
    · rw [peekH, if_neg hx] at hp
      rw [peekAllH, if_neg hx, ih hp]

theorem mem_peekAllH_addH_of_mem {x k k2 v : Str} {h : Headers}
    (hx : x ∈ peekAllH k h) : x ∈ peekAllH k (addH k2 v h) := by
  by_cases hk : k = k2
  · subst hk
    rw [peekAllH_addH_self]
    exact List.mem_append_left _ hx
  · rw [peekAllH_addH_ne hk]
    exact hx

theorem self_mem_peekAllH_addH (k v : Str) (h : Headers) :
    v ∈ peekAllH k (addH k v h) := by
  rw [peekAllH_addH_self]
  exact List.mem_append_right _ (List.mem_singleton.mpr rfl)

theorem mem_peekAllH_innerFold {x k k2 : Str} {vs : List Str} {base : Headers}
    (hx : x ∈ peekAllH k base) :
    x ∈ peekAllH k (vs.foldl (fun a v => addH k2 v a) base) := by
  induction vs generalizing base with
  | nil => exact hx
  | cons w ws ih => exact ih (mem_peekAllH_addH_of_mem hx)

theorem mem_innerFold_of_mem {k v : Str} {vs : List Str} (base : Headers) (hv : v ∈ vs) :
    v ∈ peekAllH k (vs.foldl (fun a w => addH k w a) base) := by
  induction vs generalizing base with
  | nil => exact absurd hv (List.not_mem_nil v)
  | cons w ws ih =>
    rw [List.foldl_cons]
    rcases List.mem_cons.mp hv with rfl | hmem
    · exact mem_peekAllH_innerFold (self_mem_peekAllH_addH _ _ _)
    · exact ih _ hmem

theorem addAllFold_cons (kv : Str × List Str) (rest : List (Str × List Str)) (base : Headers) :
    addAllFold (kv :: rest) base
      = addAllFold rest (kv.2.foldl (fun a v => addH kv.1 v a) base) := rfl

theorem mem_peekAllH_addAllFold {x k : Str} {entries : List (Str × List Str)} {base : Headers}
    (hx : x ∈ peekAllH k base) : x ∈ peekAllH k (addAllFold entries base) := by
  induction entries generalizing base with
  | nil => exact hx
  | cons kv rest ih => exact ih (mem_peekAllH_innerFold hx)

theorem mem_addAllFold_of_mem {k v : Str} {vs : List Str}
    {entries : List (Str × List Str)} (base : Headers)
    (he : (k, vs) ∈ entries) (hv : v ∈ vs) :
    v ∈ peekAllH k (addAllFold entries base) := by
  induction entries generalizing base with
  | nil => exact absurd he (List.not_mem_nil _)
  | cons kv rest ih =>
    rw [addAllFold_cons]
    rcases List.mem_cons.mp he with rfl | hmem
    · exact mem_peekAllH_addAllFold (mem_innerFold_of_mem base hv)
    · exact ih _ hmem

/-- Claim C2: the X-Forwarded-For composition. HTTP engine (`xffStep`, run on
the sanitised request that `serveHTTP` hands to the backend): with no prior
occurrence the value delivered is exactly the caller IP; with a non-empty
first occurrence `prior`, a new occurrence `prior ++ ", " ++ ip` is appended
while the existing entries are kept untouched (append, never overwrite in
place); a present-but-empty value (a director set it to "") is preserved
empty and not re-populated. WS handshake forwarder (`prepareForwardHeader`):
the single delivered value is `prior ++ ", " ++ clientIP` when a prior
occurrence exists and `clientIP` otherwise. -/
theorem c2_xff_append :
    (∀ (h : Headers) (ip : Str),
        (peekH xffName h = none →
            xffStep (some ip) h = addH xffName ip h
            ∧ peekAllH xffName (xffStep (some ip) h) = [ip])
        ∧ (∀ prior : Str, peekH xffName h = some prior → prior ≠ [] →
            xffStep (some ip) h = addH xffName (prior ++ strOf ", " ++ ip) h)
        ∧ (peekH xffName h = some [] → xffStep (some ip) h = h))
    ∧ (∀ (inH : Headers) (host clientIP scheme : Str),
        (peekH xffName inH = none →
            peekAllH xffName (prepareForwardHeader inH host clientIP scheme) = [clientIP])
        ∧ (∀ prior : Str, peekH xffName inH = some prior →
            peekAllH xffName (prepareForwardHeader inH host clientIP scheme)
              = [prior ++ strOf ", " ++ clientIP]))
    ∧ (∀ (cfg : Config) (req : Request) (resp0 : Response) (rip : Option Str)
        (backend : Request → Except Str Response),
        (serveHTTP cfg req resp0 rip backend).backendReq.headers
          = xffStep rip (sanitizeRequestHeaders cfg.transferTrailer
              (directedRequest cfg req).headers)) := by
  refine ⟨?_, ?_, ?_⟩
  · intro h ip
    refine ⟨fun hp => ?_, fun prior hp hne => ?_, fun hp => ?_⟩
    · have h1 : xffStep (some ip) h = addH xffName ip h := by
        simp only [xffStep, hp]
      refine ⟨h1, ?_⟩
      rw [h1, peekAllH_addH_self, peekAllH_eq_nil_of_peekH_none hp, List.nil_append]
    · have hemp : prior.isEmpty = false := by
        cases prior with
        | nil => exact absurd rfl hne
        | cons a l => rfl
      simp [xffStep, hp, hemp]
    · simp [xffStep, hp]
  · intro inH host clientIP scheme
    have base : ∀ (ch : Str) (f4 : Headers),
        peekAllH xffName
          (if scheme = strOf "https"
           then setH (strOf "X-Forwarded-Proto") (strOf "https")
                  (setH (strOf "X-Forwarded-Proto") (strOf "http") (setH xffName ch f4))
           else setH (strOf "X-Forwarded-Proto") (strOf "http") (setH xffName ch f4)) = [ch] := by
      intro ch f4
      by_cases hs : scheme = strOf "https"
      · rw [if_pos hs, peekAllH_setH_ne (by decide), peekAllH_setH_ne (by decide),
          peekAllH_setH_self]
      · rw [if_neg hs, peekAllH_setH_ne (by decide), peekAllH_setH_self]
    constructor
    · intro hp
      simp only [prepareForwardHeader, hp]
      exact base clientIP _
    · intro prior hp
      simp only [prepareForwardHeader, hp]
      exact base (prior ++ strOf ", " ++ clientIP) _
  · intro cfg req resp0 rip backend
    rcases hb : backend (backendRequest cfg req rip) with e | bresp
    · rw [serveHTTP_error hb]
      rfl
    · rcases hm : cfg.modifyResponse with _ | m
      · rw [serveHTTP_ok_noModifier hb hm]
        rfl
      · rcases hout : m (sanitizedResponse cfg resp0 bresp) with ⟨r2, oe⟩
        cases oe with
        | none =>
          rw [serveHTTP_ok_modifierOk hb hm hout]
          rfl
        | some e2 =>
          rw [serveHTTP_ok_modifierErr hb hm hout]
          rfl

/-- Witness for C2 at concrete headers: prior-present append, absent set,
explicitly-empty preservation, and the WS chain value. -/
theorem c2_xff_append_witness :
    xffStep (some (strOf "9.9.9.9")) [(xffName, strOf "1.2.3.4")]
      = addH xffName (strOf "1.2.3.4" ++ strOf ", " ++ strOf "9.9.9.9")
          [(xffName, strOf "1.2.3.4")]
    ∧ peekAllH xffName (xffStep (some (strOf "9.9.9.9")) []) = [strOf "9.9.9.9"]
    ∧ xffStep (some (strOf "9.9.9.9")) [(xffName, [])] = [(xffName, [])]
    ∧ peekAllH xffName
        (prepareForwardHeader [(xffName, strOf "1.2.3.4")] (strOf "example.com")
          (strOf "9.9.9.9") (strOf "http"))
        = [strOf "1.2.3.4" ++ strOf ", " ++ strOf "9.9.9.9"] := by
  refine ⟨?_, ?_, ?_, ?_⟩
  · exact (c2_xff_append.1 [(xffName, strOf "1.2.3.4")] (strOf "9.9.9.9")).2.1
      (strOf "1.2.3.4") (by decide) (by decide)
  · exact ((c2_xff_append.1 [] (strOf "9.9.9.9")).1 rfl).2
  · exact (c2_xff_append.1 [(xffName, [])] (strOf "9.9.9.9")).2.2 (by decide)
  · exact (c2_xff_append.2.1 [(xffName, strOf "1.2.3.4")] (strOf "example.com")
      (strOf "9.9.9.9") (strOf "http")).2 (strOf "1.2.3.4") (by decide)

/-- Claim C7: on a WebSocket backend dial failure no upgrade of the caller's
connection is attempted; with a partial HTTP response its status code, every
header value and its body are copied into the caller's response; without one
the caller's response status becomes 503 (Service Unavailable). -/
theorem c7_ws_dial_failure (resp0 : Response) (e : Str) (pr : HTTPResponseGo) :
    (wsDialPhase (.fail e (some pr)) resp0).upgradeAttempted = false
    ∧ (wsDialPhase (.fail e (some pr)) resp0).resp.status = pr.statusCode
    ∧ (wsDialPhase (.fail e (some pr)) resp0).resp.body = pr.body
    ∧ (∀ (k v : Str) (vs : List Str), (k, vs) ∈ pr.header → v ∈ vs →
        v ∈ peekAllH k (wsDialPhase (.fail e (some pr)) resp0).resp.headers)
    ∧ (wsDialPhase (.fail e none) resp0).upgradeAttempted = false
    ∧ (wsDialPhase (.fail e none) resp0).resp.status = 503
    ∧ (wsDialPhase (.fail e none) resp0).resp.body = e := by
  refine ⟨rfl, rfl, rfl, ?_, rfl, rfl, rfl⟩
  intro k v vs hk hv
  exact mem_addAllFold_of_mem resp0.headers hk hv

/-- Witness for C7 at a concrete partial response and a concrete bare failure. -/
theorem c7_ws_dial_failure_witness :
    (wsDialPhase
        (.fail (strOf "dial refused")
          (some { statusCode := 401,
                  header := [(strOf "WWW-Authenticate", [strOf "Basic"])],
                  body := strOf "denied" }))
        respEmpty).resp.status = 401
    ∧ strOf "Basic" ∈ peekAllH (strOf "WWW-Authenticate")
        (wsDialPhase
          (.fail (strOf "dial refused")
            (some { statusCode := 401,
                    header := [(strOf "WWW-Authenticate", [strOf "Basic"])],
                    body := strOf "denied" }))
          respEmpty).resp.headers
    ∧ (wsDialPhase (.fail (strOf "dial refused") none) respEmpty).upgradeAttempted = false
    ∧ (wsDialPhase (.fail (strOf "dial refused") none) respEmpty).resp.status = 503 := by
  have H := c7_ws_dial_failure respEmpty (strOf "dial refused")
    { statusCode := 401, header := [(strOf "WWW-Authenticate", [strOf "Basic"])],
      body := strOf "denied" }
  exact ⟨H.2.1, H.2.2.2.1 (strOf "WWW-Authenticate") (strOf "Basic") [strOf "Basic"]
    (by decide) (by decide), H.2.2.2.2.1, H.2.2.2.2.2.1⟩

theorem serveHTTP_backendReq (cfg : Config) (req : Request) (resp0 : Response)
    (rip : Option Str) (backend : Request → Except Str Response) :
    (serveHTTP cfg req resp0 rip backend).backendReq = backendRequest cfg req rip := by
  rcases hb : backend (backendRequest cfg req rip) with e | bresp
  · rw [serveHTTP_error hb]
  · rcases hm : cfg.modifyResponse with _ | m
    · rw [serveHTTP_ok_noModifier hb hm]
    · rcases hout : m (sanitizedResponse cfg resp0 bresp) with ⟨r2, oe⟩
      cases oe with
      | none => rw [serveHTTP_ok_modifierOk hb hm hout]
      | some e2 => rw [serveHTTP_ok_modifierErr hb hm hout]

theorem serveHTTP_mergedResp_spec {cfg : Config} {req : Request} {resp0 : Response}
    {rip : Option Str} {backend : Request → Except Str Response} {mr : Response}
    (hmr : (serveHTTP cfg req resp0 rip backend).mergedResp = some mr) :
    (serveHTTP cfg req resp0 rip backend).sanitizedResp
        = some { mr with headers := sanitizeResponseHeaders cfg.transferTrailer mr.headers }
    ∧ (cfg.modifyResponse = none →
        (serveHTTP cfg req resp0 rip backend).finalResp
          = { mr with headers := sanitizeResponseHeaders cfg.transferTrailer mr.headers }) := by
  rcases hb : backend (backendRequest cfg req rip) with e | bresp
  · rw [serveHTTP_error hb] at hmr
    exact Option.noConfusion hmr
  · have hsan : mr = mergedResponse cfg resp0 bresp →
        sanitizedResponse cfg resp0 bresp
          = { mr with headers := sanitizeResponseHeaders cfg.transferTrailer mr.headers } := by
      intro h2
      subst h2
      rfl
    rcases hm : cfg.modifyResponse with _ | m
    · have hmr2 : mr = mergedResponse cfg resp0 bresp := by
        rw [serveHTTP_ok_noModifier hb hm] at hmr
        exact (Option.some.inj hmr).symm
      constructor
      · rw [serveHTTP_ok_noModifier hb hm]
        show some (sanitizedResponse cfg resp0 bresp) = _
        rw [hsan hmr2]
      · intro _
        rw [serveHTTP_ok_noModifier hb hm]
        show sanitizedResponse cfg resp0 bresp = _
        rw [hsan hmr2]
    · rcases hout : m (sanitizedResponse cfg resp0 bresp) with ⟨r2, oe⟩
      cases oe with
      | none =>
        have hmr2 : mr = mergedResponse cfg resp0 bresp := by
          rw [serveHTTP_ok_modifierOk hb hm hout] at hmr
          exact (Option.some.inj hmr).symm
        constructor
        · rw [serveHTTP_ok_modifierOk hb hm hout]
          show some (sanitizedResponse cfg resp0 bresp) = _
          rw [hsan hmr2]
        · intro hnone
          exact Option.noConfusion hnone
      | some e2 =>
        have hmr2 : mr = mergedResponse cfg resp0 bresp := by
          rw [serveHTTP_ok_modifierErr hb hm hout] at hmr
          exact (Option.some.inj hmr).symm
        constructor
        · rw [serveHTTP_ok_modifierErr hb hm hout]
          show some (sanitizedResponse cfg resp0 bresp) = _
          rw [hsan hmr2]
        · intro hnone
          exact Option.noConfusion hnone

/-- Claim C1 counterexample: at a concrete input (trailer forwarding enabled,
`Connection: X-Forwarded-For`, `Te: TRAILERS`, a modifier adding `Upgrade`),
the claim as stated fails: the delivered backend request contains the
Connection-listed name `X-Forwarded-For` (re-added by the forwarding step),
the response delivered to the caller contains `Upgrade` (added by the
modifier after sanitisation), and although the claim's case-insensitive
trigger holds, no `Te: trailers` header is re-added (the code's check is
case-sensitive). -/
theorem c1_hop_header_counterexample :
    ¬ c1OriginalClaimAt cfgC1x reqC1x respEmpty (some (strOf "9.9.9.9")) backendC1x := by
  decide

/-- Claim C1 as amended. Request side: with the hop-by-hop set taken as the
static list plus the `Connection` tokens of the directed request, any such
name present on the request delivered to the backend is `X-Forwarded-For`
(re-added by the forwarding step) or, with `transferTrailer` on, `Trailer`
(always skipped by the static strip) or `Te` when the case-sensitive
`Te: trailers` check passed; in the latter case exactly one `Te: trailers`
header is present, and `Trailer` entries survive unchanged unless a
`Connection` token names `Trailer`. Response side: on the merged backend
response the sanitisation leaves no hop-by-hop or Connection-listed name
except `Trailer` under `transferTrailer`; the sanitised response is what the
optional modifier receives and, with no modifier, what the caller gets. -/
theorem c1_hop_header_stripping (cfg : Config) (req : Request) (resp0 : Response)
    (rip : Option Str) (backend : Request → Except Str Response) :
    (∀ n : Str,
        (n ∈ hopHeadersL ∨ n ∈ connTokens (directedRequest cfg req).headers) →
        n ∈ namesOf (serveHTTP cfg req resp0 rip backend).backendReq.headers →
        n = xffName
          ∨ (cfg.transferTrailer = true
              ∧ (n = trailerName
                  ∨ (n = teName ∧ checkTeHeader (directedRequest cfg req).headers = true))))
    ∧ (cfg.transferTrailer = true →
        checkTeHeader (directedRequest cfg req).headers = true →
        peekAllH teName (serveHTTP cfg req resp0 rip backend).backendReq.headers = [trailersVal])
    ∧ (cfg.transferTrailer = true →
        trailerName ∉ connTokens (directedRequest cfg req).headers →
        peekAllH trailerName (serveHTTP cfg req resp0 rip backend).backendReq.headers
          = peekAllH trailerName (directedRequest cfg req).headers)
    ∧ (∀ mr : Response, (serveHTTP cfg req resp0 rip backend).mergedResp = some mr →
        (∀ n : Str, (n ∈ hopHeadersL ∨ n ∈ connTokens mr.headers) →
            n ∈ namesOf (sanitizeResponseHeaders cfg.transferTrailer mr.headers) →
            cfg.transferTrailer = true ∧ n = trailerName)
        ∧ (cfg.transferTrailer = true → trailerName ∉ connTokens mr.headers →
            peekAllH trailerName (sanitizeResponseHeaders cfg.transferTrailer mr.headers)
              = peekAllH trailerName mr.headers)
        ∧ (serveHTTP cfg req resp0 rip backend).sanitizedResp
            = some { mr with headers := sanitizeResponseHeaders cfg.transferTrailer mr.headers }
        ∧ (cfg.modifyResponse = none →
            (serveHTTP cfg req resp0 rip backend).finalResp
              = { mr with headers := sanitizeResponseHeaders cfg.transferTrailer mr.headers })) := by
  refine ⟨?_, ?_, ?_, ?_⟩
  · intro n hset hmem
    rw [serveHTTP_backendReq] at hmem
    have hmem2 : n ∈ namesOf (xffStep rip (sanitizeRequestHeaders cfg.transferTrailer
        (directedRequest cfg req).headers)) := hmem
    rcases mem_namesOf_xffStep hmem2 with rfl | hmem3
    · exact Or.inl rfl
    · rcases mem_namesOf_sanitizeRequestHeaders hmem3 with ⟨htt, hte, rfl⟩ | ⟨hin, htok, hhop⟩
      · exact Or.inr ⟨htt, Or.inr ⟨rfl, hte⟩⟩
      · rcases hset with hh | hh
        · rcases hhop hh with ⟨htt, rfl⟩
          exact Or.inr ⟨htt, Or.inl rfl⟩
        · exact absurd hh htok
  · intro htt hte
    rw [serveHTTP_backendReq]
    show peekAllH teName (xffStep rip (sanitizeRequestHeaders cfg.transferTrailer
        (directedRequest cfg req).headers)) = [trailersVal]
    rw [htt, peekAllH_xffStep_ne (by decide), peekAllH_te_sanitizeRequestHeaders hte]
  · intro htt hnt
    rw [serveHTTP_backendReq]
    show peekAllH trailerName (xffStep rip (sanitizeRequestHeaders cfg.transferTrailer
        (directedRequest cfg req).headers)) = peekAllH trailerName (directedRequest cfg req).headers
    rw [htt, peekAllH_xffStep_ne (by decide), peekAllH_trailer_sanitizeRequestHeaders hnt]
  · intro mr hmr
    refine ⟨?_, ?_, (serveHTTP_mergedResp_spec hmr).1, (serveHTTP_mergedResp_spec hmr).2⟩
    · intro n hset hmem
      obtain ⟨hin, htok, hhop⟩ := mem_namesOf_sanitizeResponseHeaders hmem
      rcases hset with hh | hh
      · exact hhop hh
      · exact absurd hh htok
    · intro htt hnt
      rw [htt]
      exact peekAllH_trailer_sanitizeResponseHeaders hnt

/-- Witness for C1 (amended) at a concrete run with a genuine `Te: trailers`:
the hop header `Keep-Alive` is stripped, exactly one `Te: trailers` is
re-added, the `Trailer` header survives, and with no modifier the caller
receives the sanitised backend response. -/
theorem c1_hop_header_stripping_witness :
    peekAllH teName ((serveHTTP cfgC1w reqC1w respEmpty (some (strOf "2.2.2.2"))
        backendOkEmpty).backendReq.headers) = [trailersVal]
    ∧ strOf "Keep-Alive" ∉ namesOf ((serveHTTP cfgC1w reqC1w respEmpty (some (strOf "2.2.2.2"))
        backendOkEmpty).backendReq.headers)
    ∧ peekAllH trailerName ((serveHTTP cfgC1w reqC1w respEmpty (some (strOf "2.2.2.2"))
        backendOkEmpty).backendReq.headers) = [strOf "Expires"]
    ∧ (serveHTTP cfgC1w reqC1w respEmpty (some (strOf "2.2.2.2")) backendOkEmpty).finalResp
        = respEmpty := by
  have H := c1_hop_header_stripping cfgC1w reqC1w respEmpty (some (strOf "2.2.2.2")) backendOkEmpty
  refine ⟨H.2.1 rfl (by decide), ?_, (H.2.2.1 rfl (by decide)).trans (by decide), ?_⟩
  · intro hmem
    rcases H.1 (strOf "Keep-Alive") (Or.inl (by decide)) hmem with h | ⟨_, h | ⟨h, _⟩⟩
    · exact absurd h (by decide)
    · exact absurd h (by decide)
    · exact absurd h (by decide)
  · exact ((H.2.2.2 (mergedResponse cfgC1w respEmpty respEmpty) rfl).2.2.2 rfl).trans (by decide)

theorem splitOnChar_ne_nil (c : Char) (l : Str) : splitOnChar c l ≠ [] := by
  induction l with
  | nil => simp [splitOnChar]
  | cons x xs ih =>
    by_cases hx : x = c
    · simp [splitOnChar, hx]
    · simp only [splitOnChar, if_neg hx]
      rcases hsp : splitOnChar c xs with _ | ⟨hh, tt⟩
      · exact absurd hsp ih
      · simp

theorem upToChar_eq_self_of_not_contains {c : Char} {l : Str}
    (hc : containsChar c l = false) : upToChar c l = l := by
  induction l with
  | nil => rfl
  | cons x xs ih =>
    by_cases hx : x = c
    · rw [containsChar, if_pos hx] at hc
      exact Bool.noConfusion hc
    · rw [containsChar, if_neg hx] at hc
      rw [upToChar, if_neg hx, ih hc]

theorem splitOnChar_of_not_contains {c : Char} {l : Str}
    (hc : containsChar c l = false) : splitOnChar c l = [l] := by
  induction l with
  | nil => rfl
  | cons x xs ih =>
    by_cases hx : x = c
    · rw [containsChar, if_pos hx] at hc
      exact Bool.noConfusion hc
    · rw [containsChar, if_neg hx] at hc
      simp only [splitOnChar, if_neg hx]
      rw [ih hc]

theorem splitOnChar_of_contains {c : Char} {l : Str} (hc : containsChar c l = true) :
    splitOnChar c l = upToChar c l :: splitOnChar c (fromChar c l) := by
  induction l with
  | nil => exact Bool.noConfusion hc
  | cons x xs ih =>
    by_cases hx : x = c
    · simp only [splitOnChar, upToChar, fromChar, if_pos hx]
    · rw [containsChar, if_neg hx] at hc
      simp only [splitOnChar, upToChar, fromChar, if_neg hx]
      rw [ih hc]

theorem splitOnChar_getD0 (c : Char) (l : Str) :
    (splitOnChar c l).getD 0 [] = upToChar c l := by
  cases hc : containsChar c l
  · rw [splitOnChar_of_not_contains hc, upToChar_eq_self_of_not_contains hc]
    rfl
  · rw [splitOnChar_of_contains hc]
    rfl

theorem partsLen_eq1_iff {c : Char} {l : Str} :
    (splitOnChar c l).length = 1 ↔ containsChar c l = false := by
  cases hc : containsChar c l
  · simp [splitOnChar_of_not_contains hc]
  · rw [splitOnChar_of_contains hc]
    simp only [List.length_cons]
    constructor
    · intro h
      have h0 : (splitOnChar c (fromChar c l)).length = 0 := Nat.succ.inj h
      exact absurd (List.eq_nil_of_length_eq_zero h0) (splitOnChar_ne_nil c _)
    · intro h
      exact Bool.noConfusion h

theorem partsLen_gt1_iff {c : Char} {l : Str} :
    1 < (splitOnChar c l).length ↔ containsChar c l = true := by
  cases hc : containsChar c l
  · rw [splitOnChar_of_not_contains hc]
    simp
  · rw [splitOnChar_of_contains hc]
    simp only [List.length_cons]
    have hpos := List.length_pos.mpr (splitOnChar_ne_nil c (fromChar c l))
    constructor
    · intro _
      trivial
    · intro _
      omega

theorem parts_getD1_eq {c : Char} {l : Str} (hc : containsChar c l = true) :
    (splitOnChar c l).getD 1 [] = upToChar c (fromChar c l) := by
  rw [splitOnChar_of_contains hc]
  show (splitOnChar c (fromChar c l)).getD 0 [] = _
  exact splitOnChar_getD0 c (fromChar c l)

theorem joinURLPath_eq_amended (reqPath reqQuery host target : Str) :
    joinURLPath reqPath reqQuery host target = joinURLPathAmended reqPath reqQuery host target := by
  simp only [joinURLPath, joinURLPathAmended]
  rw [splitOnChar_getD0]
  by_cases hq : containsChar '?' (normalizeTarget host target).1 = true
  · have h1 : 1 < (splitOnChar '?' (normalizeTarget host target).1).length :=
      partsLen_gt1_iff.mpr hq
    have h2 : ¬ (splitOnChar '?' (normalizeTarget host target).1).length = 1 := by
      intro hx
      exact Bool.noConfusion ((partsLen_eq1_iff.mp hx).symm.trans hq)
    rw [parts_getD1_eq hq]
    simp [hq, h1, h2]
  · rw [Bool.not_eq_true] at hq
    have hl : (splitOnChar '?' (normalizeTarget host target).1).length = 1 :=
      partsLen_eq1_iff.mpr hq
    have h1 : ¬ 1 < (splitOnChar '?' (normalizeTarget host target).1).length := by
      rw [hl]
      decide
    simp [hq, h1, hl]

/-- Claim C3 counterexample: for a target holding two '?', the code reattaches
only the `strings.Split` element 1 ("sta=tic") and drops the rest, while the
claim's "split any query suffix off the target and reattach it" reattaches
the whole suffix "sta=tic?x". -/
theorem c3_join_url_counterexample :
    joinURLPath (strOf "/d") [] (strOf "h") (strOf "http://host/proxy?sta=tic?x")
        = strOf "http://host/proxy/d?sta=tic"
    ∧ joinURLPathClaim (strOf "/d") [] (strOf "h") (strOf "http://host/proxy?sta=tic?x")
        = strOf "http://host/proxy/d?sta=tic?x"
    ∧ joinURLPath (strOf "/d") [] (strOf "h") (strOf "http://host/proxy?sta=tic?x")
        ≠ joinURLPathClaim (strOf "/d") [] (strOf "h") (strOf "http://host/proxy?sta=tic?x") :=
  ⟨by decide, by decide, by decide⟩

/-- Claim C3 as amended: `JoinURLPath` composes the backend path/query as the
claim describes — target path part first, slash policy from the target's
trailing slash and the request path's leading slash, target query reattached
with '?', request query appended with '?' or '&' — except that the
reattached target query is only the text between the first and the second
'?' of the target (anything after a second '?' is discarded). The concrete
instance: target "http://host/proxy?sta=tic" with no inbound query yields
the query string "sta=tic" exactly. -/
theorem c3_join_url_path :
    (∀ reqPath reqQuery host target : Str, reqPath ≠ [] →
        joinURLPath reqPath reqQuery host target
          = joinURLPathAmended reqPath reqQuery host target)
    ∧ queryOf (joinURLPath (strOf "/backend") [] (strOf "somehost")
        (strOf "http://host/proxy?sta=tic")) = strOf "sta=tic" :=
  ⟨fun a b c d _ => joinURLPath_eq_amended a b c d, by decide⟩

/-- Witness for C3 at a concrete non-empty request path with its own query. -/
theorem c3_join_url_path_witness :
    joinURLPath (strOf "/backend") (strOf "a=1") (strOf "somehost")
        (strOf "http://host/proxy?sta=tic")
      = joinURLPathAmended (strOf "/backend") (strOf "a=1") (strOf "somehost")
        (strOf "http://host/proxy?sta=tic")
    ∧ queryOf (joinURLPath (strOf "/backend") [] (strOf "somehost")
        (strOf "http://host/proxy?sta=tic")) = strOf "sta=tic" :=
  ⟨c3_join_url_path.1 (strOf "/backend") (strOf "a=1") (strOf "somehost")
      (strOf "http://host/proxy?sta=tic") (by decide),
   c3_join_url_path.2⟩
